import Mathlib

/-
Verification development for the slide-deck editing tool (slide_edit.py).

The program unpacks a .pptx archive, extracts the text runs of every slide
(text_parse / generate_text), asks a text-editing API for replacement lines,
substitutes the generated lines for the original runs in the slide XML files
with re.sub (edit_text), repacks the archive, and finally regenerates every
picture with an image API, resizing each generated image to the original
picture's pixel dimensions (edit_images).

The embedding below models the pure data transformations of the script.
External effects are parameters: the text API response is a string argument,
the image API is an oracle function, slide files are a list of their string
contents, and parsed slide XML is given as a tree in the shape ElementTree
produces. Python's re.sub is modeled on the fragment of regex syntax the
program can actually feed it: literal characters, the dot metacharacter and
balanced groups; the remaining metacharacters make the model refuse instead
of guessing, so every modeled behavior agrees with Python on the fragment.
-/

namespace SlideEdit

/-- Regex pattern item in the modeled fragment of Python re: a literal
character or the metacharacter dot. Groups are flattened away by the parser,
because without backreferences they only affect capture, which is unused. -/
inductive RItem where
  | lit : Char → RItem
  | dot : RItem
deriving DecidableEq

/-- Metacharacters of Python re that the model refuses rather than interpret. -/
def pyMetaChars : List Char := ['*', '+', '?', '[', ']', '\x7b', '\x7d', '|', '^', '$', '\\']

/-- All characters that Python re treats specially in a pattern. -/
def pySpecialChars : List Char := '(' :: ')' :: '.' :: pyMetaChars

/-- Recursive-descent parser for the modeled regex fragment, mirroring how
Python re.compile treats a pattern: plain characters are literals, dot
matches any non-newline character, parentheses group and must balance, the
other metacharacters are outside the modeled fragment. Fuel bounds recursion
depth; parseTop supplies enough fuel for any input. -/
def parseItems : Nat → List Char → Except String (List RItem × List Char)
  | 0, _ => .error ("internal fuel exhausted")
  | _ + 1, [] => .ok ([], [])
  | fuel + 1, c :: cs =>
    if c = ')' then .ok ([], c :: cs)
    else if c = '(' then
      match parseItems fuel cs with
      | .error e => .error e
      | .ok (inner, rest1) =>
        match rest1 with
        | ')' :: rest2 =>
          match parseItems fuel rest2 with
          | .error e => .error e
          | .ok (items, rest3) => .ok (inner ++ items, rest3)
        | _ => .error ("missing ), unterminated subpattern")
    else if c = '.' then
      match parseItems fuel cs with
      | .error e => .error e
      | .ok (items, rest) => .ok (RItem.dot :: items, rest)
    else if c ∈ pyMetaChars then .error ("unsupported metacharacter in modeled regex fragment")
    else
      match parseItems fuel cs with
      | .error e => .error e
      | .ok (items, rest) => .ok (RItem.lit c :: items, rest)

/-- Top-level pattern parse: like re.compile, errors on an unbalanced
parenthesis. -/
def parseTop (cs : List Char) : Except String (List RItem) :=
  match parseItems (cs.length + 1) cs with
  | .error e => .error e
  | .ok (items, []) => .ok items
  | .ok (_, _ :: _) => .error ("unbalanced parenthesis")

/-- Matching of an item sequence against the front of a string; items in the
modeled fragment each consume exactly one character, with dot refusing the
newline character as Python re does. Returns the remaining suffix on
success. -/
def matchItems : List RItem → List Char → Option (List Char)
  | [], s => some s
  | _ :: _, [] => none
  | RItem.lit c :: items, d :: s => if d = c then matchItems items s else none
  | RItem.dot :: items, d :: s => if d = '\n' then none else matchItems items s

/-- Left-to-right scan of re.sub: at each position, if the pattern matches,
emit the replacement and skip the matched span (an empty match, possible
only for the empty pattern, emits the replacement and copies one character,
as Python does); otherwise copy one character. Fuel bounds recursion; the
wrapper supplies the string length, which always suffices. -/
def subScanF (items : List RItem) (repl : List Char) : Nat → List Char → List Char
  | _, [] =>
    match matchItems items [] with
    | some _ => repl
    | none => []
  | 0, c :: s' => c :: s'
  | fuel + 1, c :: s' =>
    match matchItems items (c :: s') with
    | some rest =>
      if rest.length = s'.length + 1 then repl ++ c :: subScanF items repl fuel s'
      else repl ++ subScanF items repl fuel rest
    | none => c :: subScanF items repl fuel s'

/-- Expansion of the character escapes Python re recognizes inside a
replacement template: backslash, bell, backspace, form feed, newline,
carriage return, tab and vertical tab. -/
def templEscape (c : Char) : Option Char :=
  if c = '\\' then some ('\\')
  else if c = 'a' then some (Char.ofNat 7)
  else if c = 'b' then some (Char.ofNat 8)
  else if c = 'f' then some (Char.ofNat 12)
  else if c = 'n' then some ('\n')
  else if c = 'r' then some ('\r')
  else if c = 't' then some ('\t')
  else if c = 'v' then some (Char.ofNat 11)
  else none

/-- Model of Python re's replacement-template parsing, which re.sub performs
eagerly, before scanning for matches, so its errors are raised even when the
pattern matches nowhere: a recognized character escape expands to its
character, a backslash before any other ASCII letter raises bad escape, a
backslash before a digit or g is a group reference, which is outside the
modeled fragment and refused here (the program's replacements are plain API
response lines), a backslash before any other character is kept verbatim,
and a trailing backslash raises bad escape. -/
def parseTemplate : List Char → Except String (List Char)
  | [] => .ok []
  | c :: cs =>
    if c = '\\' then
      match cs with
      | [] => .error ("bad escape (end of pattern)")
      | d :: cs' =>
        if d.isDigit || d = 'g' then
          .error ("group reference outside the modeled replacement fragment")
        else
          match templEscape d with
          | some e =>
            match parseTemplate cs' with
            | .error err => .error err
            | .ok ds => .ok (e :: ds)
          | none =>
            if d.isAlpha then .error ("bad escape")
            else
              match parseTemplate cs' with
              | .error err => .error err
              | .ok ds => .ok ('\\' :: d :: ds)
    else
      match parseTemplate cs with
      | .error err => .error err
      | .ok ds => .ok (c :: ds)

/-- Model of Python re.sub(pattern, repl, s) on the modeled fragment:
compile the pattern (propagating compile errors, which re.sub raises), then
parse the replacement template eagerly (its errors are raised even with no
match), then replace every non-overlapping occurrence, leftmost first, by
the expanded template. Within the modeled fragment the template expands to a
fixed string, since group references are refused. -/
def pyReSub (pattern repl s : String) : Except String String :=
  match parseTop pattern.data with
  | .error e => .error e
  | .ok items =>
    match parseTemplate repl.data with
    | .error e => .error e
    | .ok rs => .ok (String.mk (subScanF items rs s.data.length s.data))

/-- Literal front-match test: litMatch p s is true when p is an initial
segment of s, compared character by character. -/
def litMatch : List Char → List Char → Bool
  | [], _ => true
  | _ :: _, [] => false
  | a :: p, b :: s => if a = b then litMatch p s else false

/-- Literal replace-all reference function, written from the specification's
words: scan left to right and replace every non-overlapping occurrence of
the pattern, taken as a plain string, by the replacement. Structured to
mirror subScanF so the two can be compared on metacharacter-free patterns. -/
def litReplaceAllF (p repl : List Char) : Nat → List Char → List Char
  | _, [] => if litMatch p [] then repl else []
  | 0, c :: s' => c :: s'
  | fuel + 1, c :: s' =>
    if litMatch p (c :: s') then
      if p.length = 0 then repl ++ c :: litReplaceAllF p repl fuel s'
      else repl ++ litReplaceAllF p repl fuel ((c :: s').drop p.length)
    else c :: litReplaceAllF p repl fuel s'

/-- Literal replace-all on strings. -/
def litSub (pat rep s : String) : String :=
  String.mk (litReplaceAllF pat.data rep.data s.data.length s.data)

/-- Literal first-occurrence-only replacement, written from the
specification's words ("first-match text substitution"): replace only the
leftmost occurrence of the pattern, taken as a plain string. -/
def litReplaceFirstAux (p repl : List Char) : List Char → List Char
  | [] => if litMatch p [] then repl else []
  | c :: s => if litMatch p (c :: s) then repl ++ (c :: s).drop p.length
              else c :: litReplaceFirstAux p repl s

/-- Literal first-occurrence-only replacement on strings. -/
def litReplaceFirst (pat rep s : String) : String :=
  String.mk (litReplaceFirstAux pat.data rep.data s.data)

/-- Model of Python str.split("\n") on character lists: split at every
newline, keeping empty pieces, so the empty string yields one empty piece. -/
def charSplitNl : List Char → List (List Char)
  | [] => [[]]
  | c :: cs =>
    if c = '\n' then [] :: charSplitNl cs
    else
      match charSplitNl cs with
      | [] => [[c]]
      | l :: ls => (c :: l) :: ls

/-- Model of response.split("\n"). -/
def pySplitNl (s : String) : List String :=
  (charSplitNl s.data).map String.mk

/-- The padded response list of edit_text: split the response on newlines
and, when there are fewer lines than extracted runs, append empty strings up
to the run count, exactly as the two lines guarded by the length comparison
do. -/
def pyPad (xml_text : List String) (response : String) : List String :=
  let rs := pySplitNl response
  if rs.length < xml_text.length then rs ++ List.replicate (xml_text.length - rs.length) (("")) else rs

/-- One substitution step of edit_text's inner loop: content =
re.sub(xml_text[j], responses[j], content), with Python's IndexError when j
is out of range of either list. -/
def subRun (xml_text responses : List String) (j : Nat) (content : String) : Except String String :=
  match xml_text.get? j, responses.get? j with
  | some pat, some rep => pyReSub pat rep content
  | _, _ => .error ("IndexError: list index out of range")

/-- The inner loop of edit_text over a list of run indices, threading the
slide file content through successive re.sub calls. -/
def subRange (xml_text responses : List String) (content : String) : List Nat → Except String String
  | [] => .ok content
  | j :: js =>
    match subRun xml_text responses j content with
    | .error e => .error e
    | .ok c => subRange xml_text responses c js

/-- The outer loop of edit_text: n starts at 0; for slide i with
attrs_per_slide[i] = a, open slide file i (FileNotFoundError when it does
not exist), apply re.sub for run indices n, ..., n+a-1, write the result
back, and advance n by a. Slide files beyond the attrs list are untouched. -/
def editTextLoop (xml_text responses : List String) : Nat → List Nat → List String → Except String (List String)
  | _, [], files => .ok files
  | _, _ :: _, [] => .error ("FileNotFoundError: no such slide file")
  | n, a :: attrs, content :: files =>
    match subRange xml_text responses content (List.range' n a) with
    | .error e => .error e
    | .ok c =>
      match editTextLoop xml_text responses (n + a) attrs files with
      | .error e => .error e
      | .ok rest => .ok (c :: rest)

/-- Model of edit_text(save_dir, xml_text, response, attrs_per_slide): the
slide files are passed as the list of their current contents, in slide
order, and the result is their new contents (or the propagated exception). -/
def edit_text (xml_text : List String) (response : String) (attrs_per_slide : List Nat) (files : List String) : Except String (List String) :=
  editTextLoop xml_text (pyPad xml_text response) 0 attrs_per_slide files

/-- Literal-substitution variant of subRun, replacing every occurrence of
the pattern taken as a plain string; reference point for comparing re.sub
against the specification's described substitution. -/
def litSubRun (xml_text responses : List String) (j : Nat) (content : String) : Except String String :=
  match xml_text.get? j, responses.get? j with
  | some pat, some rep => .ok (litSub pat rep content)
  | _, _ => .error ("IndexError: list index out of range")

/-- Literal-substitution variant of subRange. -/
def litSubRange (xml_text responses : List String) (content : String) : List Nat → Except String String
  | [] => .ok content
  | j :: js =>
    match litSubRun xml_text responses j content with
    | .error e => .error e
    | .ok c => litSubRange xml_text responses c js

/-- Literal-substitution variant of editTextLoop. -/
def litEditTextLoop (xml_text responses : List String) : Nat → List Nat → List String → Except String (List String)
  | _, [], files => .ok files
  | _, _ :: _, [] => .error ("FileNotFoundError: no such slide file")
  | n, a :: attrs, content :: files =>
    match litSubRange xml_text responses content (List.range' n a) with
    | .error e => .error e
    | .ok c =>
      match litEditTextLoop xml_text responses (n + a) attrs files with
      | .error e => .error e
      | .ok rest => .ok (c :: rest)

/-- Literal-substitution variant of edit_text: identical control flow, with
every re.sub call replaced by literal replace-all substitution. -/
def edit_text_literal (xml_text : List String) (response : String) (attrs_per_slide : List Nat) (files : List String) : Except String (List String) :=
  litEditTextLoop xml_text (pyPad xml_text response) 0 attrs_per_slide files

/-- XML element as parsed by xml.etree.ElementTree: a resolved tag, the text
directly inside the element (none when the element has no text content, as
ET reports None), and the child elements in document order. -/
inductive XElem where
  | mk (tag : String) (text : Option String) (children : List XElem)

/-- Tag of an element. -/
def XElem.tag : XElem → String
  | .mk t _ _ => t

/-- Text directly inside an element, as ElementTree's .text attribute. -/
def XElem.text : XElem → Option String
  | .mk _ x _ => x

/-- Child elements in document order. -/
def XElem.children : XElem → List XElem
  | .mk _ _ cs => cs

mutual

/-- Pre-order collection of an element and its matching descendants,
mirroring the document-order traversal of ElementTree findall. -/
def collect (tag : String) : XElem → List XElem
  | .mk t x cs => (if t = tag then [XElem.mk t x cs] else []) ++ collectList tag cs

/-- Pre-order collection over a forest of sibling elements. -/
def collectList (tag : String) : List XElem → List XElem
  | [] => []
  | e :: es => collect tag e ++ collectList tag es

end

/-- Resolved tag of a DrawingML text run, as ElementTree names it under the
namespace map that text_parse passes to findall. -/
def aT : String := "\x7bhttp://schemas.openxmlformats.org/drawingml/2006/main\x7dt"

/-- Model of tree.findall(".//a:t", ...): all matching descendants of the
root, the root itself excluded, in document order. -/
def findall (tag : String) (root : XElem) : List XElem :=
  collectList tag root.children

/-- Model of text_parse: given one slide's parsed XML, return the text of
each a:t run in document order; an empty run yields none, because ET's
.text is None for an element without text content. -/
def text_parse (root : XElem) : List (Option String) :=
  (findall aT root).map XElem.text

/-- The extraction loop of generate_text: iterate the slides in order,
append each slide's parsed runs to xml_text and record the slide's run count
in attrs_per_slide. -/
def generate_text_extract : List XElem → List (Option String) × List Nat
  | [] => ([], [])
  | s :: rest =>
    let st := text_parse s
    let (xs, cnts) := generate_text_extract rest
    (st ++ xs, st.length :: cnts)

/-- Model of "\n".join(xml_text): concatenate the runs with newline
separators, raising Python's TypeError when an item is None instead of a
string. -/
def joinRuns : List (Option String) → Except String String
  | [] => .ok ("")
  | none :: _ => .error ("TypeError: sequence item: expected str instance, NoneType found")
  | some s :: [] => .ok s
  | some s :: x :: rest =>
    match joinRuns (x :: rest) with
    | .error e => .error e
    | .ok r => .ok (s ++ "\n" ++ r)

/-- Model of generate_text: extract all runs and per-slide counts, join the
runs into the API input (propagating the join failure), and return the API
response together with xml_text and attrs_per_slide. The network call is an
oracle from the joined input to the response text. -/
def generate_text (api : String → String) (slides : List XElem) : Except String (String × List (Option String) × List Nat) :=
  let ex := generate_text_extract slides
  match joinRuns ex.1 with
  | .error e => .error e
  | .ok inputstr => .ok (api inputstr, ex.1, ex.2)

/-- Strict descendant relation on parsed XML elements. -/
inductive IsDesc : XElem → XElem → Prop where
  | child {e : XElem} {t : String} {x : Option String} {cs : List XElem} :
      e ∈ cs → IsDesc e (XElem.mk t x cs)
  | step {e c : XElem} {t : String} {x : Option String} {cs : List XElem} :
      c ∈ cs → IsDesc e c → IsDesc e (XElem.mk t x cs)

/-- Slide XML tree with one a:t run per given text, for concrete scenarios. -/
def slideTree (texts : List String) : XElem :=
  XElem.mk ("p:sld") none (texts.map fun t => XElem.mk aT (some t) [])

/-- Slide file content with one a:t node per given text, for concrete
scenarios: all markup outside the text nodes is fixed by the template. -/
def slideFile (texts : List String) : String :=
  "<p:sld>" ++ String.join (texts.map fun t => "<a:t>" ++ t ++ "</a:t>") ++ "</p:sld>"

/-- Pixel image as PIL presents it: modeled by its size. Modelled from the
PIL contract used by the source: Image.open yields an image of the
download's native size, and img.resize(size) returns an image of exactly
the requested size. -/
structure PilImage where
  width : Nat
  height : Nat
deriving DecidableEq

/-- Model of PIL Image.resize((w, h)). -/
def pilResize (_img : PilImage) (w h : Nat) : PilImage :=
  { width := w, height := h }

/-- Embedded image part of a picture shape, with its pixel dimensions as
image_part.image.size reports them. -/
structure ImagePart where
  width : Nat
  height : Nat
deriving DecidableEq

/-- A slide shape as edit_images sees it: optional text (shapes with a text
attribute contribute to the prompt) and an optional picture part. -/
structure Shape where
  text : Option String
  picture : Option ImagePart

/-- A slide of the reopened presentation, for edit_images. -/
structure PSlide where
  shapes : List Shape

/-- The prompt edit_images builds for a slide: the text of every text-bearing
shape, each followed by a space, in shape order. -/
def slidePrompt (s : PSlide) : String :=
  s.shapes.foldl (fun acc sh =>
    match sh.text with
    | some t => acc ++ t ++ " "
    | none => acc) ("")

/-- Image-generation API request as edit_images issues it: prompt truncated
to 1000 characters, n = 1, and a size string. -/
structure ApiRequest where
  prompt : String
  n : Nat
  size : String
deriving DecidableEq

/-- The output resolution bucket edit_images selects from the original
image's width. -/
def outputsizeFor (w : Nat) : String :=
  if w ≤ 256 then "256x256" else if w ≤ 512 then "512x512" else "1024x1024"

/-- The request edit_images issues for one picture shape. -/
def pictureRequest (prompt : String) (part : ImagePart) : ApiRequest :=
  { prompt := String.mk (prompt.data.take 1000), n := 1, size := outputsizeFor part.width }

/-- Per-picture processing of edit_images: resize the downloaded generated
image to the original part's pixel dimensions; the result overwrites the
shape's image blob. -/
def processPicture (gen : PilImage) (part : ImagePart) : PilImage :=
  pilResize gen part.width part.height

/-- Model of the picture-editing loop of edit_images: for every slide, for
every picture shape in order, issue the request built from the slide's
prompt and the part's width, obtain the generated image from the oracle,
and store the resized image as the shape's new blob. Returns the new image
blobs, grouped per slide in shape order. -/
def edit_images (oracle : ApiRequest → PilImage) (slides : List PSlide) : List (List PilImage) :=
  slides.map fun s =>
    (s.shapes.filterMap Shape.picture).map fun part =>
      processPicture (oracle (pictureRequest (slidePrompt s) part)) part

/-- Truth of an Except value. -/
def exceptOk {α : Type} : Except String α → Bool
  | .ok _ => true
  | .error _ => false

/-- Option view of an Except value. -/
def exceptToOption {α : Type} : Except String α → Option α
  | .ok a => some a
  | .error _ => none

/-! ### Helper lemmas about extraction -/

/-- Closed form of the extraction loop's run list. -/
theorem gen_extract_fst (slides : List XElem) :
    (generate_text_extract slides).1 = (slides.map text_parse).flatten := by
  induction slides with
  | nil => rfl
  | cons s rest ih => simp [generate_text_extract, ih]

/-- Closed form of the extraction loop's per-slide counts. -/
theorem gen_extract_snd (slides : List XElem) :
    (generate_text_extract slides).2 = slides.map (fun s => (text_parse s).length) := by
  induction slides with
  | nil => rfl
  | cons s rest ih => simp [generate_text_extract, ih]

/-! ### Claim C2: extraction returns all runs, grouped by slide, with counts -/

/-- C2: for a document with N slides and K total text runs, the extraction
loop of generate_text returns exactly K run entries, grouped in slide order
with each slide's runs in document order (text_parse's traversal order), and
attrs_per_slide records the per-slide run counts, one per slide. -/
theorem c2_extraction_counts (slides : List XElem) :
    (generate_text_extract slides).1 = (slides.map text_parse).flatten ∧
    (generate_text_extract slides).2 = slides.map (fun s => (text_parse s).length) ∧
    (generate_text_extract slides).1.length = ((generate_text_extract slides).2).sum ∧
    (generate_text_extract slides).2.length = slides.length ∧
    (generate_text_extract slides).1.length = (slides.map (fun s => (findall aT s).length)).sum := by
  refine ⟨gen_extract_fst slides, gen_extract_snd slides, ?_, ?_, ?_⟩
  · rw [gen_extract_fst, gen_extract_snd]
    induction slides with
    | nil => rfl
    | cons s rest ih => simp [ih]
  · rw [gen_extract_snd]; simp
  · rw [gen_extract_fst]
    induction slides with
    | nil => rfl
    | cons s rest ih => simp [ih, text_parse]

/-! ### Helper lemmas about findall and descendants -/

/-- An element whose tag matches occurs in its own collection. -/
theorem self_mem_collect {tag : String} (e : XElem) (h : e.tag = tag) :
    e ∈ collect tag e := by
  cases e with
  | mk t x cs =>
    simp only [XElem.tag] at h
    simp [collect, h]

/-- Collection over a forest contains the collection of each member. -/
theorem mem_collectList_of_mem {tag : String} {c : XElem} {cs : List XElem}
    (hc : c ∈ cs) {x : XElem} (hx : x ∈ collect tag c) : x ∈ collectList tag cs := by
  induction cs with
  | nil => cases hc
  | cons e es ih =>
    rcases List.mem_cons.mp hc with h | h
    · subst h; exact List.mem_append.mpr (Or.inl hx)
    · exact List.mem_append.mpr (Or.inr (ih h))

/-- An element's collection contains the collection over its children. -/
theorem mem_collect_of_children {tag : String} {c x : XElem}
    (hx : x ∈ collectList tag c.children) : x ∈ collect tag c := by
  cases c with
  | mk t t0 cs =>
    simp only [XElem.children] at hx
    simp only [collect]
    exact List.mem_append.mpr (Or.inr hx)

/-- Every strict descendant with a matching tag is returned by findall, the
model of the .//tag query. -/
theorem desc_mem_findall {tag : String} {e s : XElem}
    (h : IsDesc e s) (ht : e.tag = tag) : e ∈ findall tag s := by
  induction h with
  | child hmem => exact mem_collectList_of_mem hmem (self_mem_collect _ ht)
  | step hmem _ ih => exact mem_collectList_of_mem hmem (mem_collect_of_children ih)

/-- Joining runs with newlines fails as soon as some run is None. -/
theorem joinRuns_error {l : List (Option String)} (h : none ∈ l) :
    ∃ msg, joinRuns l = .error msg := by
  induction l with
  | nil => cases h
  | cons x rest ih =>
    cases x with
    | none => exact ⟨_, rfl⟩
    | some s =>
      have hr : none ∈ rest := by
        rcases List.mem_cons.mp h with h0 | h0
        · cases h0
        · exact h0
      cases rest with
      | nil => cases hr
      | cons y rest' =>
        obtain ⟨msg, hmsg⟩ := ih hr
        exact ⟨msg, by simp only [joinRuns, hmsg]⟩

/-! ### Claim C10: empty text runs break generation -/

/-- C10: a slide that contains an empty a:t element (no text content) makes
text_parse yield none for that run rather than an empty string, and
generate_text then fails with a join error before calling the API, whatever
the API would have answered. -/
theorem c10_empty_run_fails (api : String → String) (slides : List XElem)
    (s : XElem) (cs0 : List XElem)
    (hs : s ∈ slides) (hd : IsDesc (XElem.mk aT none cs0) s) :
    none ∈ text_parse s ∧ ∃ msg, generate_text api slides = .error msg := by
  have he : XElem.mk aT none cs0 ∈ findall aT s := desc_mem_findall hd rfl
  have h1 : none ∈ text_parse s := by
    have := List.mem_map_of_mem XElem.text he
    simpa [text_parse, XElem.text] using this
  refine ⟨h1, ?_⟩
  have h2 : none ∈ (generate_text_extract slides).1 := by
    rw [gen_extract_fst]
    exact List.mem_flatten.mpr ⟨text_parse s, List.mem_map_of_mem text_parse hs, h1⟩
  obtain ⟨msg, hmsg⟩ := joinRuns_error h2
  exact ⟨msg, by simp only [generate_text, hmsg]⟩

/-- Witness for C10 at a concrete one-slide deck whose single a:t element is
empty. -/
theorem c10_empty_run_fails_witness :
    none ∈ text_parse (XElem.mk ("p:sld") none [XElem.mk aT none []]) ∧
    ∃ msg, generate_text (fun _ => ("")) [XElem.mk ("p:sld") none [XElem.mk aT none []]] = .error msg :=
  c10_empty_run_fails (fun _ => ("")) [XElem.mk ("p:sld") none [XElem.mk aT none []]]
    (XElem.mk ("p:sld") none [XElem.mk aT none []]) []
    (by simp) (IsDesc.child (by simp))

/-! ### Claim C6: end-to-end two-slide scenario -/

/-- C6: for a 2-slide deck whose three text runs are Title, Subtitle, Body in
document order, under every split of this run sequence over the two slides,
extraction returns the three runs with the matching per-slide counts, and
edit_text with the mocked response replaces exactly the three text nodes by
the corresponding French strings: the resulting files are the same templates
with only the node texts changed, so every byte outside the three text nodes
is identical to the original. -/
theorem c6_two_slide_deck :
    (generate_text_extract [slideTree [], slideTree ["Title", "Subtitle", "Body"]] =
        ([some "Title", some "Subtitle", some "Body"], [0, 3]) ∧
      edit_text ["Title", "Subtitle", "Body"] "Titre\nSous-titre\nCorps" [0, 3]
          [slideFile [], slideFile ["Title", "Subtitle", "Body"]] =
        .ok [slideFile [], slideFile ["Titre", "Sous-titre", "Corps"]]) ∧
    (generate_text_extract [slideTree ["Title"], slideTree ["Subtitle", "Body"]] =
        ([some "Title", some "Subtitle", some "Body"], [1, 2]) ∧
      edit_text ["Title", "Subtitle", "Body"] "Titre\nSous-titre\nCorps" [1, 2]
          [slideFile ["Title"], slideFile ["Subtitle", "Body"]] =
        .ok [slideFile ["Titre"], slideFile ["Sous-titre", "Corps"]]) ∧
    (generate_text_extract [slideTree ["Title", "Subtitle"], slideTree ["Body"]] =
        ([some "Title", some "Subtitle", some "Body"], [2, 1]) ∧
      edit_text ["Title", "Subtitle", "Body"] "Titre\nSous-titre\nCorps" [2, 1]
          [slideFile ["Title", "Subtitle"], slideFile ["Body"]] =
        .ok [slideFile ["Titre", "Sous-titre"], slideFile ["Corps"]]) ∧
    (generate_text_extract [slideTree ["Title", "Subtitle", "Body"], slideTree []] =
        ([some "Title", some "Subtitle", some "Body"], [3, 0]) ∧
      edit_text ["Title", "Subtitle", "Body"] "Titre\nSous-titre\nCorps" [3, 0]
          [slideFile ["Title", "Subtitle", "Body"], slideFile []] =
        .ok [slideFile ["Titre", "Sous-titre", "Corps"], slideFile []]) :=
  ⟨⟨rfl, rfl⟩, ⟨rfl, rfl⟩, ⟨rfl, rfl⟩, ⟨rfl, rfl⟩⟩

/-! ### Claim C9: run text is used as an uneascaped regex pattern -/

/-- C9: edit_text hands each run's text to re.sub as a pattern without
escaping. A run text with an unbalanced parenthesis makes edit_text fail
with the pattern-compilation error instead of performing any replacement,
and a run text containing a dot replaces a span that is not the literal
original text: literal substitution of a.c leaves the file unchanged, while
edit_text rewrites the axc span. -/
theorem c9_unescaped_pattern :
    edit_text [("(a")] ("X") [1] [("<a:t>(a</a:t>")] =
      .error ("missing ), unterminated subpattern") ∧
    edit_text [("a.c")] ("X") [1] [("<t>axc</t>")] = .ok [("<t>X</t>")] ∧
    litSub ("a.c") ("X") ("<t>axc</t>") = ("<t>axc</t>") ∧
    (("<t>X</t>") : String) ≠ ("<t>axc</t>") :=
  ⟨rfl, rfl, rfl, by decide⟩

/-! ### Claim C7: generated images are resized to the original dimensions -/

/-- C7: for every picture shape processed by edit_images, the stored image is
the downloaded generated image resized to the original part's pixel
dimensions, so its width and height equal the original's whatever the
generated image's native resolution was. -/
theorem c7_resize_to_original (oracle : ApiRequest → PilImage) (slides : List PSlide)
    (i j : Nat) (s : PSlide) (part : ImagePart)
    (hs : slides.get? i = some s)
    (hp : (s.shapes.filterMap Shape.picture).get? j = some part) :
    ∃ row, (edit_images oracle slides).get? i = some row ∧
      ∃ img, row.get? j = some img ∧
        img = processPicture (oracle (pictureRequest (slidePrompt s) part)) part ∧
        img.width = part.width ∧ img.height = part.height := by
  have hrow : (edit_images oracle slides).get? i =
      some ((s.shapes.filterMap Shape.picture).map fun pt =>
        processPicture (oracle (pictureRequest (slidePrompt s) pt)) pt) := by
    rw [edit_images, List.get?_eq_getElem?, List.getElem?_map,
      ← List.get?_eq_getElem?, hs]
    rfl
  refine ⟨_, hrow, processPicture (oracle (pictureRequest (slidePrompt s) part)) part, ?_, rfl, rfl, rfl⟩
  rw [List.get?_eq_getElem?, List.getElem?_map, ← List.get?_eq_getElem?, hp]
  rfl

/-- Witness for C7: a one-slide deck with one 300 by 200 picture and an
oracle that returns a 1024 by 1024 generated image. -/
theorem c7_resize_to_original_witness :
    ∃ row, (edit_images (fun _ => ⟨1024, 1024⟩) [⟨[⟨none, some ⟨300, 200⟩⟩]⟩]).get? 0 = some row ∧
      ∃ img, row.get? 0 = some img ∧
        img = processPicture ((fun (_ : ApiRequest) => (⟨1024, 1024⟩ : PilImage))
          (pictureRequest (slidePrompt ⟨[⟨none, some ⟨300, 200⟩⟩]⟩) ⟨300, 200⟩)) ⟨300, 200⟩ ∧
        img.width = (⟨300, 200⟩ : ImagePart).width ∧
        img.height = (⟨300, 200⟩ : ImagePart).height :=
  c7_resize_to_original (fun _ => ⟨1024, 1024⟩) [⟨[⟨none, some ⟨300, 200⟩⟩]⟩]
    0 0 ⟨[⟨none, some ⟨300, 200⟩⟩]⟩ ⟨300, 200⟩ rfl rfl

/-! ### Claim C8: the requested output resolution bucket -/

/-- C8: the size requested from the image API for a picture is a function of
the original image's width alone: 256x256 when the width is at most 256,
512x512 when it is between 257 and 512, 1024x1024 otherwise, hence always
one of the three fixed buckets. -/
theorem c8_output_size_bucket (prompt : String) (part : ImagePart) :
    (pictureRequest prompt part).size = outputsizeFor part.width ∧
    (part.width ≤ 256 → (pictureRequest prompt part).size = ("256x256")) ∧
    (256 < part.width → part.width ≤ 512 → (pictureRequest prompt part).size = ("512x512")) ∧
    (512 < part.width → (pictureRequest prompt part).size = ("1024x1024")) ∧
    (pictureRequest prompt part).size ∈ [("256x256"), ("512x512"), ("1024x1024")] := by
  refine ⟨rfl, ?_, ?_, ?_, ?_⟩
  · intro h
    simp [pictureRequest, outputsizeFor, h]
  · intro h1 h2
    have h3 : ¬ part.width ≤ 256 := by omega
    simp [pictureRequest, outputsizeFor, h2, h3]
  · intro h
    have h1 : ¬ part.width ≤ 256 := by omega
    have h2 : ¬ part.width ≤ 512 := by omega
    simp [pictureRequest, outputsizeFor, h1, h2]
  · show outputsizeFor part.width ∈ _
    unfold outputsizeFor
    split
    · simp
    split
    · simp
    · simp

/-- Witness for C8 at widths 200, 300 and 600. -/
theorem c8_output_size_bucket_witness :
    (pictureRequest ("p") ⟨200, 1⟩).size = ("256x256") ∧
    (pictureRequest ("p") ⟨300, 1⟩).size = ("512x512") ∧
    (pictureRequest ("p") ⟨600, 1⟩).size = ("1024x1024") ∧
    (pictureRequest ("p") ⟨600, 1⟩).size ∈ [("256x256"), ("512x512"), ("1024x1024")] :=
  ⟨(c8_output_size_bucket ("p") ⟨200, 1⟩).2.1 (by decide),
   (c8_output_size_bucket ("p") ⟨300, 1⟩).2.2.1 (by decide) (by decide),
   (c8_output_size_bucket ("p") ⟨600, 1⟩).2.2.2.1 (by decide),
   (c8_output_size_bucket ("p") ⟨600, 1⟩).2.2.2.2⟩

/-! ### Regex engine versus literal substitution on metacharacter-free patterns -/

/-- A successful literal front match never needs more characters than the
string has. -/
theorem litMatch_le : ∀ (p s : List Char), litMatch p s = true → p.length ≤ s.length := by
  intro p
  induction p with
  | nil => intro s _; simp
  | cons a p ih =>
    intro s h
    cases s with
    | nil => simp [litMatch] at h
    | cons b s' =>
      simp only [litMatch] at h
      by_cases hab : a = b
      · rw [if_pos hab] at h
        simpa using ih s' h
      · rw [if_neg hab] at h
        cases h

/-- A pattern of plain literals matches exactly when it is a literal front
match, consuming its own length. -/
theorem matchItems_lit (p : List Char) : ∀ s,
    matchItems (p.map RItem.lit) s = if litMatch p s then some (s.drop p.length) else none := by
  induction p with
  | nil => intro s; simp [matchItems, litMatch]
  | cons a p ih =>
    intro s
    cases s with
    | nil => simp [matchItems, litMatch]
    | cons b s' =>
      simp only [List.map_cons, matchItems, litMatch]
      by_cases hab : a = b
      · subst hab
        simp [ih]
      · have hba : ¬ b = a := fun h => hab h.symm
        simp [hab, hba]

/-- The re.sub scan on a pattern of plain literals is literal replace-all,
at every fuel value. -/
theorem subScanF_lit (p repl : List Char) : ∀ fuel s,
    subScanF (p.map RItem.lit) repl fuel s = litReplaceAllF p repl fuel s := by
  intro fuel
  induction fuel with
  | zero =>
    intro s
    cases s with
    | nil =>
      show (match matchItems (p.map RItem.lit) [] with
        | some _ => repl
        | none => []) = _
      rw [matchItems_lit]
      cases hh : litMatch p [] with
      | false => simp [litReplaceAllF, hh]
      | true => simp [litReplaceAllF, hh]
    | cons c s' => rfl
  | succ fuel ih =>
    intro s
    cases s with
    | nil =>
      show (match matchItems (p.map RItem.lit) [] with
        | some _ => repl
        | none => []) = _
      rw [matchItems_lit]
      cases hh : litMatch p [] with
      | false => simp [litReplaceAllF, hh]
      | true => simp [litReplaceAllF, hh]
    | cons c s' =>
      simp only [subScanF, litReplaceAllF, matchItems_lit]
      cases hh : litMatch p (c :: s') with
      | false => simp [ih]
      | true =>
        have hlen : p.length ≤ s'.length + 1 := by simpa using litMatch_le p (c :: s') hh
        by_cases hp : p.length = 0
        · have hd : ((c :: s').drop p.length).length = s'.length + 1 := by simp [hp]
          simp [hp, hd, ih]
        · have hd : ¬ (s'.length + 1 - p.length = s'.length + 1) := by omega
          simp [hp, hd, ih]

/-- The pattern parser maps a metacharacter-free pattern to its character
list as plain literals. -/
theorem parseItems_lit : ∀ (fuel : Nat) (cs : List Char), cs.length < fuel →
    (∀ c ∈ cs, c ∉ pySpecialChars) → parseItems fuel cs = .ok (cs.map RItem.lit, []) := by
  intro fuel
  induction fuel with
  | zero => intro cs h _; exact absurd h (Nat.not_lt_zero _)
  | succ fuel ih =>
    intro cs hlen hspec
    cases cs with
    | nil => rfl
    | cons c cs' =>
      have hc := hspec c (List.mem_cons_self c cs')
      simp only [pySpecialChars, List.mem_cons, not_or] at hc
      obtain ⟨h2, h1, h3, h4⟩ := hc
      simp only [parseItems, if_neg h1, if_neg h2, if_neg h3, if_neg h4]
      rw [ih cs' (by simpa using Nat.lt_of_succ_lt_succ hlen)
        (fun d hd => hspec d (List.mem_cons_of_mem _ hd))]
      rfl

/-- Top-level parse of a metacharacter-free pattern. -/
theorem parseTop_lit (cs : List Char) (h : ∀ c ∈ cs, c ∉ pySpecialChars) :
    parseTop cs = .ok (cs.map RItem.lit) := by
  simp [parseTop, parseItems_lit (cs.length + 1) cs (by omega) h]

/-- A backslash-free replacement template expands to itself. -/
theorem parseTemplate_id (cs : List Char) (h : ∀ c ∈ cs, c ≠ '\\') :
    parseTemplate cs = .ok cs := by
  induction cs with
  | nil => rfl
  | cons c cs ih =>
    have hc : ¬ c = '\\' := h c (List.mem_cons_self c cs)
    rw [parseTemplate.eq_def]
    simp only [if_neg hc, ih (fun d hd => h d (List.mem_cons_of_mem _ hd))]

/-- Every piece produced by splitting on newlines is made of characters of
the split string. -/
theorem mem_charSplitNl (cs : List Char) :
    ∀ piece ∈ charSplitNl cs, ∀ c ∈ piece, c ∈ cs := by
  induction cs with
  | nil =>
    intro piece hp c hc
    simp only [charSplitNl, List.mem_singleton] at hp
    subst hp
    cases hc
  | cons c0 cs ih =>
    intro piece hp c hc
    by_cases h0 : c0 = '\n'
    · simp only [charSplitNl, if_pos h0] at hp
      rcases List.mem_cons.mp hp with h | h
      · subst h; cases hc
      · exact List.mem_cons_of_mem _ (ih piece h c hc)
    · simp only [charSplitNl, if_neg h0] at hp
      cases hsplit : charSplitNl cs with
      | nil =>
        rw [hsplit] at hp
        simp only [List.mem_singleton] at hp
        subst hp
        rcases List.mem_singleton.mp hc with h
        subst h
        exact List.mem_cons_self c cs
      | cons l ls =>
        rw [hsplit] at hp
        rcases List.mem_cons.mp hp with h | h
        · subst h
          rcases List.mem_cons.mp hc with h' | h'
          · subst h'; exact List.mem_cons_self c cs
          · exact List.mem_cons_of_mem _
              (ih l (by rw [hsplit]; exact List.mem_cons_self l ls) c h')
        · exact List.mem_cons_of_mem _
            (ih piece (by rw [hsplit]; exact List.mem_cons_of_mem _ h) c hc)

/-- Lines of the split response are made of characters of the response. -/
theorem mem_pySplitNl (response : String) (hr : ∀ c ∈ response.data, c ≠ '\\') :
    ∀ r ∈ pySplitNl response, ∀ c ∈ r.data, c ≠ '\\' := by
  intro r h1 c h2
  simp only [pySplitNl, List.mem_map] at h1
  obtain ⟨piece, hpiece, rfl⟩ := h1
  exact hr c (mem_charSplitNl response.data piece hpiece c h2)

/-- When the response contains no backslash, neither does any entry of the
padded response list. -/
theorem pyPad_no_backslash (xml_text : List String) (response : String)
    (hr : ∀ c ∈ response.data, c ≠ '\\') :
    ∀ r ∈ pyPad xml_text response, ∀ c ∈ r.data, c ≠ '\\' := by
  intro r hrmem c hc
  simp only [pyPad] at hrmem
  by_cases hlen : (pySplitNl response).length < xml_text.length
  · rw [if_pos hlen] at hrmem
    rcases List.mem_append.mp hrmem with h | h
    · exact mem_pySplitNl response hr r h c hc
    · rw [List.eq_of_mem_replicate h] at hc
      cases hc
  · rw [if_neg hlen] at hrmem
    exact mem_pySplitNl response hr r hrmem c hc

/-- On a metacharacter-free pattern and a backslash-free replacement, the
modeled re.sub is exactly literal replace-all substitution. -/
theorem pyReSub_lit (pat rep s : String) (h : ∀ c ∈ pat.data, c ∉ pySpecialChars)
    (hrep : ∀ c ∈ rep.data, c ≠ '\\') :
    pyReSub pat rep s = .ok (litSub pat rep s) := by
  simp [pyReSub, parseTop_lit pat.data h, parseTemplate_id rep.data hrep, litSub, subScanF_lit]

/-- One edit_text substitution step agrees with the literal variant when all
run texts are metacharacter-free and all response entries are
backslash-free. -/
theorem subRun_lit (xml_text responses : List String) (j : Nat) (content : String)
    (h : ∀ p ∈ xml_text, ∀ c ∈ p.data, c ∉ pySpecialChars)
    (hresp : ∀ r ∈ responses, ∀ c ∈ r.data, c ≠ '\\') :
    subRun xml_text responses j content = litSubRun xml_text responses j content := by
  cases hx : xml_text.get? j with
  | none => simp only [subRun, litSubRun, hx]
  | some pat =>
    cases hr : responses.get? j with
    | none => simp only [subRun, litSubRun, hx, hr]
    | some rep =>
      simp only [subRun, litSubRun, hx, hr,
        pyReSub_lit pat rep content (h pat (List.get?_mem hx)) (hresp rep (List.get?_mem hr))]

/-- The per-slide substitution loop agrees with the literal variant when all
run texts are metacharacter-free and all response entries are
backslash-free. -/
theorem subRange_lit (xml_text responses : List String)
    (h : ∀ p ∈ xml_text, ∀ c ∈ p.data, c ∉ pySpecialChars)
    (hresp : ∀ r ∈ responses, ∀ c ∈ r.data, c ≠ '\\') :
    ∀ (js : List Nat) (content : String),
    subRange xml_text responses content js = litSubRange xml_text responses content js := by
  intro js
  induction js with
  | nil => intro content; rfl
  | cons j js ih =>
    intro content
    have hsub := subRun_lit xml_text responses j content h hresp
    simp only [subRange, litSubRange, ← hsub]
    cases subRun xml_text responses j content with
    | error e => rfl
    | ok c => exact ih c

/-- The whole edit_text loop agrees with the literal variant when all run
texts are metacharacter-free and all response entries are backslash-free. -/
theorem editTextLoop_lit (xml_text responses : List String)
    (h : ∀ p ∈ xml_text, ∀ c ∈ p.data, c ∉ pySpecialChars)
    (hresp : ∀ r ∈ responses, ∀ c ∈ r.data, c ≠ '\\') :
    ∀ (attrs : List Nat) (n : Nat) (files : List String),
    editTextLoop xml_text responses n attrs files =
      litEditTextLoop xml_text responses n attrs files := by
  intro attrs
  induction attrs with
  | nil => intro n files; rfl
  | cons a attrs ih =>
    intro n files
    cases files with
    | nil => rfl
    | cons content files =>
      simp only [editTextLoop, litEditTextLoop,
        ← subRange_lit xml_text responses h hresp (List.range' n a) content]
      cases subRange xml_text responses content (List.range' n a) with
      | error e => rfl
      | ok c => rw [ih (n + a) files]

/-! ### Claim C1 -/

/-- C1 as stated is false on the code: edit_text replaces every occurrence
of the run's text in the slide file, not only the first one. On a slide file
that contains the run text twice, once as the run and once elsewhere, the
code's output replaces both, while the first-match substitution the claim
describes leaves the second occurrence intact. -/
theorem c1_counterexample_not_first_match :
    edit_text [("Hi")] ("Yo") [1] [("<a:t>Hi</a:t><x>Hi</x>")] =
      .ok [("<a:t>Yo</a:t><x>Yo</x>")] ∧
    litReplaceFirst ("Hi") ("Yo") ("<a:t>Hi</a:t><x>Hi</x>") = ("<a:t>Yo</a:t><x>Hi</x>") ∧
    (("<a:t>Yo</a:t><x>Yo</x>") : String) ≠ ("<a:t>Yo</a:t><x>Hi</x>") :=
  ⟨rfl, rfl, by decide⟩

/-- C1 (amended): for every slide file, edit_text hands each original run's
text to re.sub as a pattern, replacing every non-overlapping occurrence,
leftmost first, by the corresponding generated line, sequentially per run;
when the run texts contain no regex special characters and the response
contains no backslashes (so the replacement templates are trivial), this is
exactly literal replace-all substitution of each run's string, applied
sequentially per run and per slide file. -/
theorem c1_amended_replace_all (xml_text : List String) (response : String)
    (attrs_per_slide : List Nat) (files : List String)
    (h : ∀ p ∈ xml_text, ∀ c ∈ p.data, c ∉ pySpecialChars)
    (hresp : ∀ c ∈ response.data, c ≠ '\\') :
    edit_text xml_text response attrs_per_slide files =
      edit_text_literal xml_text response attrs_per_slide files :=
  editTextLoop_lit xml_text (pyPad xml_text response) h
    (pyPad_no_backslash xml_text response hresp) attrs_per_slide 0 files

/-- Witness for the amended C1 at a concrete slide file in which the run
text occurs twice: both computations replace both occurrences. -/
theorem c1_amended_replace_all_witness :
    edit_text [("Hi")] ("Yo") [1] [("<a:t>Hi</a:t><x>Hi</x>")] =
      edit_text_literal [("Hi")] ("Yo") [1] [("<a:t>Hi</a:t><x>Hi</x>")] :=
  c1_amended_replace_all [("Hi")] ("Yo") [1] [("<a:t>Hi</a:t><x>Hi</x>")]
    (by decide) (by decide)

/-! ### Success and shape of the substitution loops -/

/-- A pattern that compiles and a replacement template that parses make
re.sub succeed. -/
theorem pyReSub_ok_of_parse (pat rep content : String)
    (h : exceptOk (parseTop pat.data) = true)
    (ht : exceptOk (parseTemplate rep.data) = true) :
    ∃ c, pyReSub pat rep content = .ok c := by
  cases hp : parseTop pat.data with
  | error e => rw [hp] at h; cases h
  | ok items =>
    cases htm : parseTemplate rep.data with
    | error e => rw [htm] at ht; cases ht
    | ok rs =>
      refine ⟨String.mk (subScanF items rs content.data.length content.data), ?_⟩
      simp only [pyReSub, hp, htm]

/-- The per-slide loop succeeds when every index is in range of the run list
and the padded responses, every pattern compiles, and every response entry
parses as a replacement template. -/
theorem subRange_ok (xml_text responses : List String)
    (hresp : xml_text.length ≤ responses.length)
    (hpat : ∀ p ∈ xml_text, exceptOk (parseTop p.data) = true)
    (htem : ∀ r ∈ responses, exceptOk (parseTemplate r.data) = true) :
    ∀ (js : List Nat) (content : String), (∀ j ∈ js, j < xml_text.length) →
    ∃ c, subRange xml_text responses content js = .ok c := by
  intro js
  induction js with
  | nil => intro content _; exact ⟨content, rfl⟩
  | cons j js ih =>
    intro content hj
    have hjx : j < xml_text.length := hj j (List.mem_cons_self j js)
    obtain ⟨pat, hpat'⟩ : ∃ pat, xml_text.get? j = some pat := by
      rw [List.get?_eq_getElem?]
      exact ⟨_, List.getElem?_eq_getElem hjx⟩
    obtain ⟨rep, hrep⟩ : ∃ rep, responses.get? j = some rep := by
      rw [List.get?_eq_getElem?]
      exact ⟨_, List.getElem?_eq_getElem (Nat.lt_of_lt_of_le hjx hresp)⟩
    obtain ⟨c1, hc1⟩ := pyReSub_ok_of_parse pat rep content
      (hpat pat (List.get?_mem hpat')) (htem rep (List.get?_mem hrep))
    obtain ⟨c2, hc2⟩ := ih c1 (fun x hx => hj x (List.mem_cons_of_mem _ hx))
    exact ⟨c2, by simp only [subRange, subRun, hpat', hrep, hc1, hc2]⟩

/-- The whole edit_text loop succeeds, preserves the file count, and writes
every slide file, when the run indices fit the run list, the responses cover
the runs, there is a file per counted slide, all patterns compile, and all
response entries parse as replacement templates. -/
theorem editTextLoop_ok (xml_text responses : List String)
    (hresp : xml_text.length ≤ responses.length)
    (hpat : ∀ p ∈ xml_text, exceptOk (parseTop p.data) = true)
    (htem : ∀ r ∈ responses, exceptOk (parseTemplate r.data) = true) :
    ∀ (attrs : List Nat) (files : List String) (n : Nat),
    n + attrs.sum ≤ xml_text.length → attrs.length ≤ files.length →
    ∃ res, editTextLoop xml_text responses n attrs files = .ok res ∧
      res.length = files.length := by
  intro attrs
  induction attrs with
  | nil => intro files n _ _; exact ⟨files, rfl, rfl⟩
  | cons a attrs ih =>
    intro files n hsum hlen
    cases files with
    | nil => simp at hlen
    | cons content files =>
      have hsum' : a + attrs.sum = (a :: attrs).sum := by simp
      obtain ⟨c1, hc1⟩ := subRange_ok xml_text responses hresp hpat htem (List.range' n a) content
        (fun j hj => by
          have hj' := List.mem_range'_1.mp hj
          omega)
      obtain ⟨res, hres, hreslen⟩ := ih files (n + a)
        (by rw [← hsum'] at hsum; omega) (by simpa using hlen)
      exact ⟨c1 :: res, by simp only [editTextLoop, hc1, hres], by simpa using hreslen⟩

/-! ### Claim C3: short responses are padded with empty lines -/

/-- Every entry of the padded response list parses as a replacement template
when every line of the split response does; the padding entries are empty
strings, which always parse. -/
theorem pyPad_template_ok (xml_text : List String) (response : String)
    (h : ∀ r ∈ pySplitNl response, exceptOk (parseTemplate r.data) = true) :
    ∀ r ∈ pyPad xml_text response, exceptOk (parseTemplate r.data) = true := by
  intro r hrmem
  simp only [pyPad] at hrmem
  by_cases hlen : (pySplitNl response).length < xml_text.length
  · rw [if_pos hlen] at hrmem
    rcases List.mem_append.mp hrmem with hm | hm
    · exact h r hm
    · rw [List.eq_of_mem_replicate hm]
      rfl
  · rw [if_neg hlen] at hrmem
    exact h r hrmem

/-- C3 as stated is false on the code: a short response is indeed padded,
but edit_text can still fail instead of performing the substitutions,
because re.sub parses each replacement template eagerly and a line with an
invalid escape raises re.error bad escape. One line of backslash-q against
two runs is short, yet edit_text errors rather than substituting. -/
theorem c3_counterexample_bad_escape :
    (pySplitNl ("\\q")).length < (["a", "b"] : List String).length ∧
    edit_text ["a", "b"] ("\\q") [1, 1] ["a", "b"] = .error ("bad escape") :=
  ⟨by decide, rfl⟩

/-- C3 (amended): when the response has fewer lines than there are extracted
runs, edit_text pads the line list with empty strings up to the run count
(every padded slot holds the empty string); provided each response line is a
valid replacement template, it then performs all the substitutions
successfully, one file written per counted slide. -/
theorem c3_pad_short_response (xml_text : List String) (response : String)
    (attrs_per_slide : List Nat) (files : List String)
    (h1 : (pySplitNl response).length < xml_text.length)
    (h2 : attrs_per_slide.sum = xml_text.length)
    (h3 : attrs_per_slide.length ≤ files.length)
    (h4 : ∀ p ∈ xml_text, exceptOk (parseTop p.data) = true)
    (h5 : ∀ r ∈ pySplitNl response, exceptOk (parseTemplate r.data) = true) :
    (pyPad xml_text response).length = xml_text.length ∧
    (∀ j, (pySplitNl response).length ≤ j → j < xml_text.length →
      (pyPad xml_text response).get? j = some ((""))) ∧
    ∃ result, edit_text xml_text response attrs_per_slide files = .ok result ∧
      result.length = files.length := by
  have hpadlen : (pyPad xml_text response).length = xml_text.length := by
    simp only [pyPad, if_pos h1, List.length_append, List.length_replicate]
    omega
  refine ⟨hpadlen, ?_, ?_⟩
  · intro j hj1 hj2
    simp only [pyPad, if_pos h1]
    rw [List.get?_eq_getElem?, List.getElem?_append_right (by simpa using hj1)]
    exact List.getElem?_replicate_of_lt (by omega)
  · obtain ⟨res, hres, hlen⟩ := editTextLoop_ok xml_text (pyPad xml_text response)
      (by omega) h4 (pyPad_template_ok xml_text response h5) attrs_per_slide files 0
      (by omega) h3
    exact ⟨res, hres, hlen⟩

/-- Witness for the amended C3: two runs, a one-line response, one run per
slide. -/
theorem c3_pad_short_response_witness :
    (pyPad ["a", "b"] "X").length = (["a", "b"] : List String).length ∧
    (∀ j, (pySplitNl "X").length ≤ j → j < (["a", "b"] : List String).length →
      (pyPad ["a", "b"] "X").get? j = some ((""))) ∧
    ∃ result, edit_text ["a", "b"] "X" [1, 1] ["a", "b"] = .ok result ∧
      result.length = (["a", "b"] : List String).length :=
  c3_pad_short_response ["a", "b"] "X" [1, 1] ["a", "b"]
    (by decide) (by decide) (by decide) (by decide) (by decide)

/-! ### Claim C4: excess response lines are ignored -/

/-- Substitution over an index block only looks at response entries below
the bound, so response lists that agree there are interchangeable. -/
theorem subRange_congr (xml_text rs1 rs2 : List String) (K : Nat)
    (hagree : ∀ j, j < K → rs1.get? j = rs2.get? j) :
    ∀ (js : List Nat) (content : String), (∀ j ∈ js, j < K) →
    subRange xml_text rs1 content js = subRange xml_text rs2 content js := by
  intro js
  induction js with
  | nil => intro content _; rfl
  | cons j js ih =>
    intro content hj
    have hrun : subRun xml_text rs1 j content = subRun xml_text rs2 j content := by
      simp only [subRun, hagree j (hj j (List.mem_cons_self j js))]
    simp only [subRange, ← hrun]
    cases subRun xml_text rs1 j content with
    | error e => rfl
    | ok c => exact ih c (fun x hx => hj x (List.mem_cons_of_mem _ hx))

/-- The edit_text loop only looks at the first n + sum(attrs) response
entries. -/
theorem editTextLoop_congr (xml_text rs1 rs2 : List String) (K : Nat)
    (hagree : ∀ j, j < K → rs1.get? j = rs2.get? j) :
    ∀ (attrs : List Nat) (files : List String) (n : Nat), n + attrs.sum ≤ K →
    editTextLoop xml_text rs1 n attrs files = editTextLoop xml_text rs2 n attrs files := by
  intro attrs
  induction attrs with
  | nil => intro files n _; rfl
  | cons a attrs ih =>
    intro files n hsum
    cases files with
    | nil => rfl
    | cons content files =>
      have hsum' : a + attrs.sum = (a :: attrs).sum := by simp
      have hr : subRange xml_text rs1 content (List.range' n a) =
          subRange xml_text rs2 content (List.range' n a) :=
        subRange_congr xml_text rs1 rs2 K hagree (List.range' n a) content
          (fun j hj => by
            have hj' := List.mem_range'_1.mp hj
            omega)
      simp only [editTextLoop, hr]
      cases subRange xml_text rs2 content (List.range' n a) with
      | error e => rfl
      | ok c => rw [ih files (n + a) (by rw [← hsum'] at hsum; omega)]

/-- C4: when the response has more lines than there are extracted runs whose
counts the attrs list records, edit_text behaves exactly as if only the
first K lines had been received: the excess lines have no effect on any
slide file. -/
theorem c4_excess_lines_ignored (xml_text : List String) (response : String)
    (attrs_per_slide : List Nat) (files : List String)
    (h1 : xml_text.length < (pySplitNl response).length)
    (h2 : attrs_per_slide.sum = xml_text.length) :
    edit_text xml_text response attrs_per_slide files =
      editTextLoop xml_text ((pySplitNl response).take xml_text.length) 0 attrs_per_slide files := by
  have hpad : pyPad xml_text response = pySplitNl response := by
    simp only [pyPad, if_neg (Nat.not_lt.mpr (Nat.le_of_lt h1))]
  rw [edit_text, hpad]
  exact editTextLoop_congr xml_text (pySplitNl response) _ xml_text.length
    (fun j hj => by
      rw [List.get?_eq_getElem?, List.get?_eq_getElem?, List.getElem?_take_of_lt hj])
    attrs_per_slide files 0 (by omega)

/-- Witness for C4: one run and a three-line response. -/
theorem c4_excess_lines_ignored_witness :
    edit_text ["a"] "X\nY\nZ" [1] ["a"] =
      editTextLoop ["a"] ((pySplitNl "X\nY\nZ").take (["a"] : List String).length) 0 [1] ["a"] :=
  c4_excess_lines_ignored ["a"] "X\nY\nZ" [1] ["a"] (by decide) (by decide)

/-! ### Claim C5: per-slide pairing of runs and generated lines -/

/-- Shape of a successful edit_text loop run: slide i's output is obtained
from slide i's input file alone, by substituting the contiguous index block
starting at the running offset. -/
theorem editTextLoop_get (xml_text rs : List String) :
    ∀ (attrs : List Nat) (files : List String) (n : Nat) (result : List String),
    editTextLoop xml_text rs n attrs files = .ok result →
    ∀ i, i < attrs.length →
    ∃ content, files.get? i = some content ∧
      result.get? i = exceptToOption (subRange xml_text rs content
        (List.range' (n + (attrs.take i).sum) (attrs.getD i 0))) := by
  intro attrs
  induction attrs with
  | nil => intro files n result _ i hi; simp at hi
  | cons a attrs ih =>
    intro files n result hok i hi
    cases files with
    | nil => simp only [editTextLoop] at hok; cases hok
    | cons content files =>
      simp only [editTextLoop] at hok
      cases hsub : subRange xml_text rs content (List.range' n a) with
      | error e => rw [hsub] at hok; cases hok
      | ok c1 =>
        rw [hsub] at hok
        cases hloop : editTextLoop xml_text rs (n + a) attrs files with
        | error e => rw [hloop] at hok; cases hok
        | ok rest =>
          rw [hloop] at hok
          obtain rfl : c1 :: rest = result := by
            cases hok
            rfl
          cases i with
          | zero =>
            refine ⟨content, rfl, ?_⟩
            simp [hsub, exceptToOption]
          | succ i' =>
            obtain ⟨ct, hct, hres⟩ := ih files (n + a) rest hloop i' (by simpa using hi)
            refine ⟨ct, by simpa using hct, ?_⟩
            simpa [List.take_succ_cons, List.sum_cons, Nat.add_assoc] using hres

/-- C5: when edit_text succeeds, the output for slide i depends only on
slide i's input file and is produced by substituting that slide's runs, in
extraction order, paired with the generated lines at the same global
offsets: indices sum(attrs[0..i)) up to sum(attrs[0..i)) + attrs[i]. -/
theorem c5_per_slide_pairing (xml_text : List String) (response : String)
    (attrs_per_slide : List Nat) (files : List String) (result : List String)
    (hok : edit_text xml_text response attrs_per_slide files = .ok result)
    (i : Nat) (hi : i < attrs_per_slide.length) :
    ∃ content, files.get? i = some content ∧
      result.get? i = exceptToOption (subRange xml_text (pyPad xml_text response) content
        (List.range' ((attrs_per_slide.take i).sum) (attrs_per_slide.getD i 0))) := by
  have := editTextLoop_get xml_text (pyPad xml_text response) attrs_per_slide files 0 result hok i hi
  simpa using this

/-- Witness for C5: a three-run deck over two slides, inspecting slide 1. -/
theorem c5_per_slide_pairing_witness :
    ∃ content, (["a a", "b c b"] : List String).get? 1 = some content ∧
      (["A A", "B C B"] : List String).get? 1 = exceptToOption
        (subRange ["a", "b", "c"] (pyPad ["a", "b", "c"] "A\nB\nC") content
          (List.range' (([1, 2].take 1).sum) ([1, 2].getD 1 0))) :=
  c5_per_slide_pairing ["a", "b", "c"] "A\nB\nC" [1, 2] ["a a", "b c b"]
    ["A A", "B C B"] rfl 1 (by decide)

end SlideEdit
